import Mathlib

/-!
Verification of the datapulse catalog/query core.

The definitions below are a shallow embedding of `src/datapulse/engine.py`
and the `sql` command of `src/datapulse/cli.py`.  External collaborators
(the duckdb engine, pandas readers, the sqlite driver, the json codec and
the filesystem) are modelled by their contracts: the persisted catalog
document is the parsed JSON value, file readers are environment functions
from paths to row lists, and the duckdb session is an explicit event trace
of the statements the code sends to it.
-/

deriving instance DecidableEq for Except

namespace DataPulse

/-- Codepoint-wise lexicographic comparison of character lists (the order
used by Python string sorting and by SQLite's default collation). -/
def lexLe : List Char → List Char → Bool
  | [], _ => true
  | _ :: _, [] => false
  | c :: cs, d :: ds =>
    if c.toNat < d.toNat then true
    else if d.toNat < c.toNat then false
    else lexLe cs ds

/-- Lexicographic comparison of strings. -/
def strLe (a b : String) : Bool := lexLe a.data b.data

/-- One catalog entry: `{"path": ..., "format": ...}` in `catalog.json`. -/
structure CatalogEntry where
  path : String
  format : String
deriving DecidableEq, Repr

/-- The in-memory catalog: a Python dict `name -> entry`, i.e. an
insertion-ordered association list with unique keys. -/
abbrev Catalog := List (String × CatalogEntry)

/-- The persisted catalog document: `none` when `catalog.json` does not
exist, otherwise the parsed JSON object in file order. -/
structure Store where
  doc : Option Catalog
deriving DecidableEq, Repr

/-- Python `d[k]` / `k in d` on an association list (first match wins;
dict keys are unique so at most one match exists). -/
def lookupKey {β : Type} (k : String) : List (String × β) → Option β
  | [] => none
  | (k', v) :: rest => if k' = k then some v else lookupKey k rest

/-- The key list of an association list. -/
def keys {β : Type} (l : List (String × β)) : List String := l.map Prod.fst

/-- Keys of a Python dict are pairwise distinct. -/
abbrev NodupKeys {β : Type} (l : List (String × β)) : Prop := (keys l).Nodup

/-- `json.dump(..., sort_keys=True)` writes the object with keys in
ascending order; modelled by a (stable) insertion sort on the key. -/
def sortEntries (c : Catalog) : Catalog :=
  c.insertionSort (fun a b => strLe a.1 b.1 = true)

/-- `_load_catalog`: `{}` if the document is absent, else its contents. -/
def loadCatalog (st : Store) : Catalog := st.doc.getD []

/-- `_save_catalog`: overwrite the document with the mapping,
serialized with sorted keys. -/
def saveCatalog (c : Catalog) : Store := ⟨some (sortEntries c)⟩

/-- Error taxonomy of the core (each constructor carries the payload the
Python message interpolates). -/
inductive DPError where
  | notFound (name : String)
  | noTables (path : String)
  | engineError (query : String)
  | unsupportedFormat (fmt : String)
  | unsupportedCatalogFormat (fmt : String)
deriving DecidableEq, Repr

/-- `remove_dataset`: load, delete the key and save when present, else
fail (`KeyError`) leaving the persisted document untouched. -/
def removeDataset (name : String) (st : Store) : Store × Option DPError :=
  let catalog := loadCatalog st
  if name ∈ keys catalog then
    (saveCatalog (catalog.filter (fun p => p.1 != name)), none)
  else
    (st, some (.notFound name))

/-! ### Identifier quoting (`_quote_ident`) -/

/-- `name.replace('"', '""')` at character level. -/
def escQuotes : List Char → List Char
  | [] => []
  | c :: cs => if c = '"' then '"' :: '"' :: escQuotes cs else c :: escQuotes cs

/-- `name.replace('"', '""')`. -/
def pyReplaceQuote (s : String) : String := String.mk (escQuotes s.data)

/-- `_quote_ident`: wrap in double quotes, doubling embedded quotes. -/
def quoteIdent (name : String) : String :=
  "\"" ++ pyReplaceQuote name ++ "\""

/-! ### Format resolver (`_infer_format`) -/

/-- Split a character list on a separator (Python `str.split(sep)`). -/
def splitOnChar (sep : Char) : List Char → List (List Char)
  | [] => [[]]
  | c :: cs =>
    let r := splitOnChar sep cs
    if c = sep then [] :: r
    else
      match r with
      | [] => [[c]]
      | g :: gs => (c :: g) :: gs

/-- `pathlib.Path(p).name`: the last nonempty `/`-separated component. -/
def lastComponent (p : List Char) : List Char :=
  (((splitOnChar '/' p).filter (fun g => g ≠ [])).getLast?).getD []

/-- Rejoin dot-separated parts (inverse of splitting on a dot). -/
def joinDots : List (List Char) → List Char
  | [] => []
  | [g] => g
  | g :: gs => g ++ '.' :: joinDots gs

/-- The suffix of a file name: from the last dot on, provided that dot is
neither leading nor trailing (pathlib's rule). -/
def suffixOf (name : List Char) : List Char :=
  let parts := splitOnChar '.' name
  match parts.getLast? with
  | none => []
  | some last =>
    if 2 ≤ parts.length ∧ last ≠ [] ∧ joinDots parts.dropLast ≠ [] then
      '.' :: last
    else []

/-- `pathlib.Path(p).suffix`. -/
def pathSuffix (p : String) : String := String.mk (suffixOf (lastComponent p.data))

/-- Python `str.lower()` (per-character, ASCII). -/
def lowerStr (s : String) : String := String.mk (s.data.map Char.toLower)

/-- `SUPPORTED_EXTS` (the set, listed here in its Python-`sorted` order). -/
def SUPPORTED_EXTS : List String := [".csv", ".db", ".parquet", ".pq", ".sqlite"]

/-- `_infer_format`: lower-cased suffix, `.pq` normalized to `.parquet`,
membership test against the supported set, leading dot stripped. -/
def inferFormat (path : String) : Except String String :=
  let ext := lowerStr (pathSuffix path)
  let ext := if ext = ".pq" then ".parquet" else ext
  if ext ∈ SUPPORTED_EXTS then
    .ok (String.mk (ext.data.dropWhile (fun c => c = '.')))
  else
    .error ("Unsupported file extension '" ++ ext ++
      "'. Supported: ['.csv', '.db', '.parquet', '.pq', '.sqlite']")

/-! ### Dataset materializer (`load_df`) -/

/-- A row of a tabular result. -/
abbrev Row := List String

/-- A SQLite database file: its tables with their rows, as exposed by
`sqlite_master` and `SELECT * FROM <table>`. -/
structure SqliteDB where
  tables : List (String × List Row)

/-- The environment of external collaborators: the persisted catalog
document plus the file contents the pandas/sqlite readers would return
for each path. -/
structure Env where
  store : Store
  readCsv : String → List Row
  readParquet : String → List Row
  sqlite : String → SqliteDB

/-- Python truthiness of an `Optional[int]`: `None` and `0` are falsy. -/
def intTruthy : Option Int → Bool
  | none => false
  | some n => n ≠ 0

/-- `df.head(n)`: the first `n` rows for `n ≥ 0`, all but the last `|n|`
rows for negative `n`. -/
def pdHead (n : Int) (rows : List Row) : List Row :=
  if 0 ≤ n then rows.take n.toNat
  else rows.take (rows.length - (-n).toNat)

/-- SQLite `LIMIT n`: caps at `n` rows for `n ≥ 0`; a negative limit
means no cap. -/
def sqliteLimit (n : Int) (rows : List Row) : List Row :=
  if 0 ≤ n then rows.take n.toNat else rows

/-- The query text `load_df` builds for the sqlite branch:
`f"SELECT * FROM {table}"` plus `f" LIMIT {int(limit)}"` when truthy. -/
def sqliteQueryText (table : String) (limit : Option Int) : String :=
  "SELECT * FROM " ++ table ++
    (if intTruthy limit then " LIMIT " ++ toString (limit.getD 0) else "")

/-- Result of `load_df`: the materialized rows, plus the SQL text that was
sent to the sqlite driver when the sqlite branch ran. -/
structure LoadOutcome where
  rows : List Row
  sqliteQuery : Option String
deriving DecidableEq, Repr

/-- `pd.read_sql(q, con)` for the queries `load_df` builds: the rows of
the named table (capped when a truthy limit was appended), or the
driver's error when the table is absent. -/
def sqliteRun (db : SqliteDB) (table : String) (limit : Option Int) :
    Except DPError LoadOutcome :=
  let q := sqliteQueryText table limit
  match lookupKey table db.tables with
  | none => .error (.engineError q)
  | some rows =>
    .ok ⟨if intTruthy limit then sqliteLimit (limit.getD 0) rows else rows, some q⟩

/-- `load_df(name, table, limit)`. -/
def loadDf (env : Env) (name : String) (table : Option String)
    (limit : Option Int) : Except DPError LoadOutcome :=
  match lookupKey name (loadCatalog env.store) with
  | none => .error (.notFound name)
  | some entry =>
    if entry.format = "csv" then
      let df := env.readCsv entry.path
      .ok ⟨if intTruthy limit then pdHead (limit.getD 0) df else df, none⟩
    else if entry.format = "parquet" then
      let df := env.readParquet entry.path
      .ok ⟨if intTruthy limit then pdHead (limit.getD 0) df else df, none⟩
    else if entry.format = "sqlite" ∨ entry.format = "db" then
      let db := env.sqlite entry.path
      match table with
      | none =>
        match (db.tables.map Prod.fst).insertionSort (fun a b => strLe a b = true) with
        | [] => .error (.noTables entry.path)
        | t :: _ => sqliteRun db t limit
      | some t => sqliteRun db t limit
    else
      .error (.unsupportedFormat entry.format)

/-- The query text `load_df` handed to the sqlite driver, recoverable
from either a successful outcome or a driver error. -/
def generatedQuery : Except DPError LoadOutcome → Option String
  | .ok out => out.sqliteQuery
  | .error (.engineError q) => some q
  | .error _ => none

/-! ### Query facade (`run_sql`) and its binding loop -/

/-- One observable interaction with the duckdb session. -/
inductive Event where
  | connect
  | exec (stmt : String)
  | execQuery (sql : String)
  | close
deriving DecidableEq, Repr

/-- The effective relation name: `view_name = ds_name`, overridden by
`register[ds_name]` when `register` is given, has the key, and the value
is truthy (non-empty). -/
def effectiveName (register : Option (List (String × String))) (dsName : String) :
    String :=
  match register with
  | none => dsName
  | some r =>
    match lookupKey dsName r with
    | some a => if a = "" then dsName else a
    | none => dsName

/-- The statement `run_sql` executes for one catalog entry, or the
`Unsupported format in catalog` failure. -/
def bindEntry (register : Option (List (String × String)))
    (p : String × CatalogEntry) : Except DPError String :=
  let viewName := effectiveName register p.1
  if p.2.format = "csv" then
    .ok ("CREATE VIEW " ++ quoteIdent viewName ++
      " AS SELECT * FROM read_csv_auto('" ++ p.2.path ++ "')")
  else if p.2.format = "parquet" then
    .ok ("CREATE VIEW " ++ quoteIdent viewName ++
      " AS SELECT * FROM read_parquet('" ++ p.2.path ++ "')")
  else if p.2.format = "sqlite" ∨ p.2.format = "db" then
    .ok ("ATTACH '" ++ p.2.path ++ "' AS " ++ quoteIdent ("s_" ++ p.1) ++
      " (TYPE SQLITE)")
  else
    .error (.unsupportedCatalogFormat p.2.format)

/-- The binding loop of `run_sql`: statements executed entry by entry in
catalog order, stopping at the first unsupported format. -/
def bindAll (register : Option (List (String × String))) :
    Catalog → List Event × Option DPError
  | [] => ([], none)
  | p :: rest =>
    match bindEntry register p with
    | .ok stmt =>
      let r := bindAll register rest
      (Event.exec stmt :: r.1, r.2)
    | .error e => ([], some e)

/-- `run_sql(sql, register)`: the session trace (connect, bind loop,
query execution when binding succeeded, close on every path) and the
outcome; a successful outcome records the SQL string the engine ran. -/
def runSql (sql : String) (register : Option (List (String × String)))
    (st : Store) : List Event × Except DPError String :=
  let catalog := loadCatalog st
  let r := bindAll register catalog
  match r.2 with
  | some e => (Event.connect :: r.1 ++ [Event.close], .error e)
  | none => (Event.connect :: r.1 ++ [Event.execQuery sql, Event.close], .ok sql)

/-! ### The `sql` CLI command (`cli.sql_cmd`) -/

/-- `" ".join(query)` at character level. -/
def joinWithSpace : List String → List Char
  | [] => []
  | [s] => s.data
  | s :: rest => s.data ++ ' ' :: joinWithSpace rest

/-- Python `str.strip()`: drop whitespace from both ends. -/
def stripChars (cs : List Char) : List Char :=
  ((cs.dropWhile Char.isWhitespace).reverse.dropWhile Char.isWhitespace).reverse

/-- `" ".join(query).strip()`. -/
def joinedQuery (query : List String) : String :=
  String.mk (stripChars (joinWithSpace query))

/-- `sql_cmd`: blank text exits with status 2 before touching the engine;
otherwise `run_sql` runs and an engine failure exits with status 1. -/
def sqlCmd (query : List String) (st : Store) : List Event × Option Nat :=
  let sql := joinedQuery query
  if sql = "" then ([], some 2)
  else
    let r := runSql sql none st
    (r.1, match r.2 with | .ok _ => none | .error _ => some 1)

/-! ### A reader for SQL double-quoted identifiers (for the quoting
property): standard SQL lexing, where `""` inside a quoted identifier
denotes one quote character and a lone `"` closes it. -/

/-- Scan the body of a quoted identifier after its opening quote.
Returns the decoded name and the remaining characters, or `none` when
the identifier is unterminated. -/
def scanIdent : List Char → Option (List Char × List Char)
  | [] => none
  | c :: rest =>
    if c = '"' then
      match rest with
      | [] => some ([], [])
      | c2 :: rest2 =>
        if c2 = '"' then (scanIdent rest2).map (fun p => ('"' :: p.1, p.2))
        else some ([], rest)
    else (scanIdent rest).map (fun p => (c :: p.1, p.2))

/-- Read one double-quoted identifier from the front of a character
stream: the decoded name and what remains after the closing quote. -/
def parseQuotedIdent (s : List Char) : Option (String × List Char) :=
  match s with
  | [] => none
  | c :: rest =>
    if c = '"' then
      match scanIdent rest with
      | some (body, rem) => some (String.mk body, rem)
      | none => none
    else none

/-! ## Helper lemmas -/

theorem lexLe_refl : ∀ cs : List Char, lexLe cs cs = true
  | [] => rfl
  | c :: cs => by simp [lexLe, lexLe_refl cs]

theorem lexLe_total : ∀ as bs : List Char, lexLe as bs = true ∨ lexLe bs as = true
  | [], _ => Or.inl rfl
  | _ :: _, [] => Or.inr rfl
  | a :: as, b :: bs => by
    rcases Nat.lt_trichotomy a.toNat b.toNat with h | h | h
    · exact Or.inl (by simp [lexLe, h])
    · rcases lexLe_total as bs with h' | h'
      · exact Or.inl (by simp [lexLe, h, h'])
      · exact Or.inr (by simp [lexLe, h, h'])
    · exact Or.inr (by simp [lexLe, h])

theorem lexLe_trans : ∀ as bs cs : List Char,
    lexLe as bs = true → lexLe bs cs = true → lexLe as cs = true
  | [], _, _ => by intro _ _; rfl
  | _ :: _, [], _ => by intro h _; simp [lexLe] at h
  | _ :: _, _ :: _, [] => by intro _ h; simp [lexLe] at h
  | a :: as, b :: bs, c :: cs => by
    intro h1 h2
    simp only [lexLe] at h1 h2 ⊢
    rcases Nat.lt_trichotomy a.toNat b.toNat with hab | hab | hab
    · rcases Nat.lt_trichotomy b.toNat c.toNat with hbc | hbc | hbc
      · simp [Nat.lt_trans hab hbc]
      · simp [hbc ▸ hab]
      · simp [hbc, Nat.lt_asymm hbc] at h2
    · rcases Nat.lt_trichotomy b.toNat c.toNat with hbc | hbc | hbc
      · simp [hab ▸ hbc]
      · have hac : a.toNat = c.toNat := hab.trans hbc
        simp [hab, Nat.lt_irrefl] at h1
        simp [hbc, Nat.lt_irrefl] at h2
        simp [hac, Nat.lt_irrefl, lexLe_trans as bs cs h1 h2]
      · simp [hbc, Nat.lt_asymm hbc] at h2
    · simp [hab, Nat.lt_asymm hab] at h1

theorem strLe_refl (a : String) : strLe a a = true := lexLe_refl a.data

theorem strLe_total (a b : String) : strLe a b = true ∨ strLe b a = true :=
  lexLe_total a.data b.data

theorem strLe_trans {a b c : String} (h1 : strLe a b = true) (h2 : strLe b c = true) :
    strLe a c = true := lexLe_trans a.data b.data c.data h1 h2

theorem lookupKey_eq_none_iff {β : Type} (k : String) :
    ∀ l : List (String × β), lookupKey k l = none ↔ k ∉ keys l
  | [] => by simp [lookupKey, keys]
  | (k', v) :: rest => by
    by_cases h : k' = k
    · subst h; simp [lookupKey, keys]
    · simp [lookupKey, keys, h, lookupKey_eq_none_iff k rest, Ne.symm h]

theorem mem_of_lookupKey_eq_some {β : Type} {k : String} {v : β} :
    ∀ {l : List (String × β)}, lookupKey k l = some v → (k, v) ∈ l
  | [], h => by simp [lookupKey] at h
  | (k', v') :: rest, h => by
    by_cases hk : k' = k
    · subst hk
      simp [lookupKey] at h
      simp [h]
    · simp [lookupKey, hk] at h
      exact List.mem_cons_of_mem _ (mem_of_lookupKey_eq_some h)

theorem lookupKey_eq_some_of_mem {β : Type} {k : String} {v : β} :
    ∀ {l : List (String × β)}, NodupKeys l → (k, v) ∈ l → lookupKey k l = some v
  | [], _, hm => by simp at hm
  | (k', v') :: rest, hn, hm => by
    have hn' : k' ∉ keys rest ∧ NodupKeys rest := by
      simpa [NodupKeys, keys] using hn
    rcases List.mem_cons.1 hm with he | hm'
    · injection he with hk hv
      subst hk; subst hv
      simp [lookupKey]
    · by_cases hk : k' = k
      · exfalso
        exact hn'.1 (hk ▸ (List.mem_map_of_mem Prod.fst hm' : k ∈ keys rest))
      · simp [lookupKey, hk, lookupKey_eq_some_of_mem hn'.2 hm']

theorem nodupKeys_of_perm {β : Type} {l₁ l₂ : List (String × β)}
    (hp : l₁.Perm l₂) (hn : NodupKeys l₁) : NodupKeys l₂ :=
  ((hp.map Prod.fst).nodup_iff).1 hn

theorem lookupKey_perm {β : Type} {l₁ l₂ : List (String × β)}
    (hp : l₁.Perm l₂) (hn : NodupKeys l₁) (k : String) :
    lookupKey k l₁ = lookupKey k l₂ := by
  cases h : lookupKey k l₁ with
  | some v =>
    exact (lookupKey_eq_some_of_mem (nodupKeys_of_perm hp hn)
      (hp.mem_iff.1 (mem_of_lookupKey_eq_some h))).symm
  | none =>
    have : k ∉ keys l₂ := fun hm =>
      ((lookupKey_eq_none_iff k l₁).1 h) ((hp.map Prod.fst).mem_iff.2 hm)
    exact ((lookupKey_eq_none_iff k l₂).2 this).symm

theorem sortEntries_perm (c : Catalog) : (sortEntries c).Perm c :=
  List.perm_insertionSort _ c

/-! ## C5: catalog store round-trip -/

/-- C5: for every mapping of names to catalog entries (keys unique, as in
a Python dict), `load()` after `save(mapping)` returns exactly that
mapping: the same key set, and the same entry (path and format) per key. -/
theorem loadCatalog_saveCatalog_roundtrip (m : Catalog) (h : NodupKeys m) :
    (keys (loadCatalog (saveCatalog m))).Perm (keys m) ∧
    ∀ k, lookupKey k (loadCatalog (saveCatalog m)) = lookupKey k m := by
  have hp : (sortEntries m).Perm m := sortEntries_perm m
  refine ⟨hp.map Prod.fst, fun k => ?_⟩
  exact (lookupKey_perm hp.symm h k).symm

/-- Witness for C5 at a concrete two-entry mapping. -/
theorem loadCatalog_saveCatalog_roundtrip_witness :
    (keys (loadCatalog (saveCatalog
        ([("b", ⟨"/b.csv", "csv"⟩), ("a", ⟨"/a.db", "db"⟩)] : Catalog)))).Perm
      (keys ([("b", ⟨"/b.csv", "csv"⟩), ("a", ⟨"/a.db", "db"⟩)] : Catalog)) ∧
    lookupKey "a" (loadCatalog (saveCatalog
        ([("b", ⟨"/b.csv", "csv"⟩), ("a", ⟨"/a.db", "db"⟩)] : Catalog))) =
      lookupKey "a" ([("b", ⟨"/b.csv", "csv"⟩), ("a", ⟨"/a.db", "db"⟩)] : Catalog) :=
  ⟨(loadCatalog_saveCatalog_roundtrip _ (by decide)).1,
   (loadCatalog_saveCatalog_roundtrip _ (by decide)).2 "a"⟩

/-! ## C6: remove_dataset -/

theorem lookupKey_nil {β : Type} (k : String) : lookupKey k ([] : List (String × β)) = none :=
  rfl

theorem lookupKey_cons {β : Type} (k k' : String) (v : β) (rest : List (String × β)) :
    lookupKey k ((k', v) :: rest) = if k' = k then some v else lookupKey k rest :=
  rfl

theorem lookupKey_filter_ne {β : Type} {k name : String} (hk : k ≠ name) :
    ∀ l : List (String × β),
      lookupKey k (l.filter (fun p => p.1 != name)) = lookupKey k l
  | [] => rfl
  | (k', v) :: rest => by
    rcases eq_or_ne k' name with h | h
    · have hcond : ((k', v).1 != name) = false := by simp [h]
      have hkk' : k' ≠ k := fun e => hk (e ▸ h)
      rw [List.filter_cons, hcond]
      simp only [Bool.false_eq_true, if_false, lookupKey_cons, if_neg hkk']
      exact lookupKey_filter_ne hk rest
    · have hcond : ((k', v).1 != name) = true := by simp [h]
      rw [List.filter_cons, hcond, if_pos rfl]
      rcases eq_or_ne k' k with hek | hek
      · simp [lookupKey_cons, hek]
      · simp only [lookupKey_cons, if_neg hek]
        exact lookupKey_filter_ne hk rest

theorem name_not_mem_keys_filter {β : Type} (name : String) (l : List (String × β)) :
    name ∉ keys (l.filter (fun p => p.1 != name)) := by
  intro hm
  rcases List.mem_map.1 hm with ⟨p, hp, hfst⟩
  have := List.of_mem_filter hp
  rw [hfst] at this
  simp at this

theorem nodupKeys_filter {β : Type} {l : List (String × β)} (h : NodupKeys l)
    (name : String) : NodupKeys (l.filter (fun p => p.1 != name)) := by
  have hsub : (l.filter (fun p => p.1 != name)).Sublist l := List.filter_sublist l
  exact List.Nodup.sublist (hsub.map Prod.fst) h

/-- C6: `remove_dataset(name)` fails with `NotFound` and leaves the
persisted document unchanged when `name` is absent; when present it
deletes exactly that key and saves: the removed name no longer resolves
and every other key still resolves to its old entry. -/
theorem removeDataset_spec (name : String) (st : Store)
    (h : NodupKeys (loadCatalog st)) :
    (name ∉ keys (loadCatalog st) →
        removeDataset name st = (st, some (DPError.notFound name))) ∧
    (name ∈ keys (loadCatalog st) →
        (removeDataset name st).2 = none ∧
        lookupKey name (loadCatalog (removeDataset name st).1) = none ∧
        ∀ k, k ≠ name →
          lookupKey k (loadCatalog (removeDataset name st).1) =
            lookupKey k (loadCatalog st)) := by
  constructor
  · intro habs
    simp only [removeDataset]
    rw [if_neg habs]
  · intro hmem
    have hfil := nodupKeys_filter h name
    have hperm : (sortEntries ((loadCatalog st).filter (fun p => p.1 != name))).Perm
        ((loadCatalog st).filter (fun p => p.1 != name)) := sortEntries_perm _
    have hload : loadCatalog (removeDataset name st).1 =
        sortEntries ((loadCatalog st).filter (fun p => p.1 != name)) := by
      simp only [removeDataset]
      rw [if_pos hmem]
      rfl
    refine ⟨by simp only [removeDataset]; rw [if_pos hmem], ?_, ?_⟩
    · rw [hload, ← lookupKey_perm hperm.symm hfil name]
      exact (lookupKey_eq_none_iff name _).2 (name_not_mem_keys_filter name _)
    · intro k hk
      rw [hload, ← lookupKey_perm hperm.symm hfil k]
      exact lookupKey_filter_ne hk _

/-- Witness for C6: a concrete store where removing an absent name fails
and removing a present name deletes exactly that key. -/
theorem removeDataset_spec_witness :
    (removeDataset "zz" ⟨some [("t", ⟨"/t.csv", "csv"⟩)]⟩ =
        (⟨some [("t", ⟨"/t.csv", "csv"⟩)]⟩, some (DPError.notFound "zz"))) ∧
    ((removeDataset "t" ⟨some [("t", ⟨"/t.csv", "csv"⟩), ("u", ⟨"/u.db", "db"⟩)]⟩).2
        = none) ∧
    lookupKey "t" (loadCatalog
        (removeDataset "t" ⟨some [("t", ⟨"/t.csv", "csv"⟩), ("u", ⟨"/u.db", "db"⟩)]⟩).1)
      = none ∧
    lookupKey "u" (loadCatalog
        (removeDataset "t" ⟨some [("t", ⟨"/t.csv", "csv"⟩), ("u", ⟨"/u.db", "db"⟩)]⟩).1)
      = lookupKey "u" (loadCatalog ⟨some [("t", ⟨"/t.csv", "csv"⟩), ("u", ⟨"/u.db", "db"⟩)]⟩) :=
  ⟨(removeDataset_spec "zz" _ (by decide)).1 (by decide),
   ((removeDataset_spec "t" _ (by decide)).2 (by decide)).1,
   ((removeDataset_spec "t" _ (by decide)).2 (by decide)).2.1,
   ((removeDataset_spec "t" _ (by decide)).2 (by decide)).2.2 "u" (by decide)⟩

/-! ## C3: identifier quoting -/

theorem scanIdent_escQuotes (tail : List Char) (ht : tail.head? ≠ some '"') :
    ∀ cs : List Char, scanIdent (escQuotes cs ++ '"' :: tail) = some (cs, tail)
  | [] => by
    cases tail with
    | nil => rfl
    | cons t ts =>
      have htne : t ≠ '"' := by
        intro he
        exact ht (by simp [he])
      simp [escQuotes, scanIdent, htne]
  | c :: cs => by
    rcases eq_or_ne c '"' with hc | hc
    · subst hc
      rw [show escQuotes ('"' :: cs) = '"' :: '"' :: escQuotes cs from by simp [escQuotes]]
      rw [List.cons_append, List.cons_append, scanIdent.eq_def]
      simp [scanIdent_escQuotes tail ht cs]
    · rw [show escQuotes (c :: cs) = c :: escQuotes cs from by simp [escQuotes, hc]]
      rw [List.cons_append, scanIdent.eq_def]
      simp [hc, scanIdent_escQuotes tail ht cs]

theorem quoteIdent_data (name : String) :
    (quoteIdent name).data = '"' :: (escQuotes name.data ++ ['"']) := by
  simp [quoteIdent, pyReplaceQuote, String.data_append]

/-- C3: the quoted identifier is the name wrapped in double quotes with
every embedded quote doubled, so that when it is followed by any
continuation of generated SQL (which never starts with another quote
character), a standard SQL reader of quoted identifiers recovers exactly
the original name and stops exactly at the continuation: a name holding
quotes or spaces cannot close the identifier early and break out of the
generated statement. -/
theorem quoteIdent_parse_roundtrip (name : String) (tail : List Char)
    (ht : tail.head? ≠ some '"') :
    parseQuotedIdent ((quoteIdent name).data ++ tail) = some (name, tail) := by
  rw [quoteIdent_data]
  show parseQuotedIdent ('"' :: (escQuotes name.data ++ ['"'] ++ tail)) = _
  have harr : escQuotes name.data ++ ['"'] ++ tail = escQuotes name.data ++ '"' :: tail := by
    simp
  rw [parseQuotedIdent.eq_def]
  simp only [if_pos rfl, harr, scanIdent_escQuotes tail ht name.data]
  rfl

/-- Witness for C3: a name holding a quote and a space, followed by a
fragment of generated SQL. -/
theorem quoteIdent_parse_roundtrip_witness :
    parseQuotedIdent ((quoteIdent "my \"evil\" name").data ++
        (" AS SELECT * FROM read_csv_auto('/tmp/f.csv')").data) =
      some ("my \"evil\" name", (" AS SELECT * FROM read_csv_auto('/tmp/f.csv')").data) :=
  quoteIdent_parse_roundtrip "my \"evil\" name" _ (by decide)

/-! ## C2: format resolution -/

/-- C2 counterexample: `.db` resolves to the tag `db`, which is not a
member of the claimed closed set `{csv, parquet, sqlite}`. -/
theorem inferFormat_db_counterexample :
    inferFormat "data.db" = .ok "db" ∧
    ("db" : String) ∉ (["csv", "parquet", "sqlite"] : List String) := by
  decide

/-- C2 amended: format resolution is a pure, case-insensitive function of
the path's extension: `.csv` resolves to `csv`, `.parquet` and `.pq` to
`parquet`, `.sqlite` to `sqlite`, and `.db` to the distinct tag `db`
(given sqlite-family handling downstream); every other extension fails
with the `UnsupportedFormat` message naming the rejected extension and
the full supported extension set. -/
theorem inferFormat_extension_cases (p : String) :
    inferFormat p =
      (if lowerStr (pathSuffix p) = ".csv" then .ok "csv"
       else if lowerStr (pathSuffix p) = ".parquet" then .ok "parquet"
       else if lowerStr (pathSuffix p) = ".pq" then .ok "parquet"
       else if lowerStr (pathSuffix p) = ".sqlite" then .ok "sqlite"
       else if lowerStr (pathSuffix p) = ".db" then .ok "db"
       else .error ("Unsupported file extension '" ++ lowerStr (pathSuffix p) ++
         "'. Supported: ['.csv', '.db', '.parquet', '.pq', '.sqlite']")) := by
  simp only [inferFormat]
  generalize lowerStr (pathSuffix p) = s
  by_cases h1 : s = ".csv"
  · subst h1; decide
  · by_cases h2 : s = ".parquet"
    · subst h2; decide
    · by_cases h3 : s = ".pq"
      · subst h3; decide
      · by_cases h4 : s = ".sqlite"
        · subst h4; decide
        · by_cases h5 : s = ".db"
          · subst h5; decide
          · have hmem : s ∉ SUPPORTED_EXTS := by
              simp [SUPPORTED_EXTS, h1, h2, h3, h4, h5]
            rw [if_neg h3, if_neg hmem, if_neg h1, if_neg h2, if_neg h3, if_neg h4,
              if_neg h5]

/-! ## C1: the relation binder -/

/-- The effective relation name as the specification words it: the alias
override for the entry's logical name when one is supplied and non-empty,
otherwise the logical name itself. -/
def specEffectiveName (register : Option (List (String × String)))
    (dsName : String) : String :=
  match register.bind (lookupKey dsName) with
  | some a => if a = "" then dsName else a
  | none => dsName

/-- The per-entry binding statement as the specification words it: for
`csv`/`parquet`, a view under the quoted effective name over the engine's
columnar reader applied to the entry's path; for the sqlite family, an
attachment of the entry's file as a foreign schema named by the fixed
prefix `s_` followed by the logical name. -/
def specBoundStmt (register : Option (List (String × String)))
    (p : String × CatalogEntry) : String :=
  if p.2.format = "csv" then
    "CREATE VIEW " ++ quoteIdent (specEffectiveName register p.1) ++
      " AS SELECT * FROM read_csv_auto('" ++ p.2.path ++ "')"
  else if p.2.format = "parquet" then
    "CREATE VIEW " ++ quoteIdent (specEffectiveName register p.1) ++
      " AS SELECT * FROM read_parquet('" ++ p.2.path ++ "')"
  else
    "ATTACH '" ++ p.2.path ++ "' AS " ++ quoteIdent ("s_" ++ p.1) ++ " (TYPE SQLITE)"

theorem effectiveName_eq_spec (register : Option (List (String × String)))
    (dsName : String) :
    effectiveName register dsName = specEffectiveName register dsName := by
  cases register with
  | none => rfl
  | some r =>
    cases hlk : lookupKey dsName r with
    | none => simp [effectiveName, specEffectiveName, Option.bind, hlk]
    | some a => simp [effectiveName, specEffectiveName, Option.bind, hlk]

theorem bindEntry_supported (register : Option (List (String × String)))
    (p : String × CatalogEntry)
    (h : p.2.format ∈ (["csv", "parquet", "sqlite", "db"] : List String)) :
    bindEntry register p = .ok (specBoundStmt register p) := by
  obtain ⟨n, e⟩ := p
  obtain ⟨pth, fmt⟩ := e
  simp only [List.mem_cons, List.not_mem_nil, or_false] at h
  rcases h with h | h | h | h <;>
    (subst h; simp [bindEntry, specBoundStmt, effectiveName_eq_spec])

/-- C1: for every catalog and alias-override map, the binding loop of
`run_sql` processes the entries in catalog order and executes, for each
one, exactly the statement the specification describes: a view under the
quoted effective name (`register` override when supplied and non-empty,
else the logical name) over `read_csv_auto`/`read_parquet` on the entry's
path for `csv`/`parquet`, and an attachment of the file as a foreign
schema named `s_` + logical name for the sqlite family. -/
theorem binder_binds_catalog_in_order (register : Option (List (String × String)))
    (catalog : Catalog)
    (h : ∀ p ∈ catalog, p.2.format ∈ (["csv", "parquet", "sqlite", "db"] : List String)) :
    bindAll register catalog =
      (catalog.map (fun p => Event.exec (specBoundStmt register p)), none) := by
  induction catalog with
  | nil => rfl
  | cons p rest ih =>
    have hp := h p (List.mem_cons_self p rest)
    have hrest := ih (fun q hq => h q (List.mem_cons_of_mem p hq))
    simp [bindAll, bindEntry_supported register p hp, hrest]

/-- Witness for C1: a three-entry catalog covering each format, with one
alias override and one empty override. -/
theorem binder_binds_catalog_in_order_witness :
    bindAll (some [("a", "renamed"), ("b", "")])
        ([("a", ⟨"/a.csv", "csv"⟩), ("b", ⟨"/b.parquet", "parquet"⟩),
          ("c", ⟨"/c.db", "db"⟩)] : Catalog) =
      (([("a", ⟨"/a.csv", "csv"⟩), ("b", ⟨"/b.parquet", "parquet"⟩),
          ("c", ⟨"/c.db", "db"⟩)] : Catalog).map
        (fun p => Event.exec (specBoundStmt (some [("a", "renamed"), ("b", "")]) p)),
       none) :=
  binder_binds_catalog_in_order _ _ (by decide)

/-! ## C8: unsupported catalog format aborts run_sql -/

theorem bindEntry_unsupported (register : Option (List (String × String)))
    (p : String × CatalogEntry)
    (h : p.2.format ∉ (["csv", "parquet", "sqlite", "db"] : List String)) :
    bindEntry register p = .error (.unsupportedCatalogFormat p.2.format) := by
  obtain ⟨n, e⟩ := p
  obtain ⟨pth, fmt⟩ := e
  simp only [List.mem_cons, List.not_mem_nil, or_false, not_or] at h
  obtain ⟨h1, h2, h3, h4⟩ := h
  simp [bindEntry, h1, h2, h3, h4]

theorem bindAll_append_bad (register : Option (List (String × String)))
    (bn : String) (bm : CatalogEntry) (post : Catalog)
    (hbad : bm.format ∉ (["csv", "parquet", "sqlite", "db"] : List String)) :
    ∀ pre : Catalog,
      (∀ p ∈ pre, p.2.format ∈ (["csv", "parquet", "sqlite", "db"] : List String)) →
      bindAll register (pre ++ (bn, bm) :: post) =
        (pre.map (fun p => Event.exec (specBoundStmt register p)),
         some (.unsupportedCatalogFormat bm.format))
  | [], _ => by
    simp [bindAll, bindEntry_unsupported register (bn, bm) hbad]
  | p :: pre', hpre => by
    have hp := hpre p (List.mem_cons_self p pre')
    have ih := bindAll_append_bad register bn bm post hbad pre'
      (fun q hq => hpre q (List.mem_cons_of_mem p hq))
    simp [bindAll, bindEntry_supported register p hp, ih]

theorem bindAll_events_are_exec (register : Option (List (String × String))) :
    ∀ catalog : Catalog, ∀ ev ∈ (bindAll register catalog).1, ∃ s, ev = Event.exec s
  | [], ev, hm => by simp [bindAll] at hm
  | p :: rest, ev, hm => by
    rcases hstep : bindEntry register p with e | stmt
    · simp [bindAll, hstep] at hm
    · rw [bindAll, hstep] at hm
      rcases List.mem_cons.1 hm with he | hm'
      · exact ⟨stmt, he⟩
      · exact bindAll_events_are_exec register rest ev hm'

/-- C8: whenever some catalog entry carries a format outside
`{csv, parquet, sqlite, db}`, `run_sql` fails with the unsupported-format
error for every SQL string: the trace holds the bindings of the entries
before the first bad one, entries after it are never bound, and no SQL
query — whatever its text — is ever executed against the session. -/
theorem runSql_unsupported_format_aborts (sql : String)
    (register : Option (List (String × String)))
    (pre post : Catalog) (bn : String) (bm : CatalogEntry)
    (hpre : ∀ p ∈ pre, p.2.format ∈ (["csv", "parquet", "sqlite", "db"] : List String))
    (hbad : bm.format ∉ (["csv", "parquet", "sqlite", "db"] : List String)) :
    runSql sql register ⟨some (pre ++ (bn, bm) :: post)⟩ =
      (Event.connect ::
          pre.map (fun p => Event.exec (specBoundStmt register p)) ++ [Event.close],
       .error (.unsupportedCatalogFormat bm.format)) ∧
    ∀ q : String,
      Event.execQuery q ∉ (runSql sql register ⟨some (pre ++ (bn, bm) :: post)⟩).1 := by
  have hba := bindAll_append_bad register bn bm post hbad pre hpre
  have heq : runSql sql register ⟨some (pre ++ (bn, bm) :: post)⟩ =
      (Event.connect ::
          pre.map (fun p => Event.exec (specBoundStmt register p)) ++ [Event.close],
       .error (.unsupportedCatalogFormat bm.format)) := by
    simp [runSql, loadCatalog, hba]
  refine ⟨heq, fun q hq => ?_⟩
  rw [heq] at hq
  rcases List.mem_cons.1 hq with he | hq'
  · exact Event.noConfusion he
  · rcases List.mem_append.1 hq' with hm | hm
    · rcases List.mem_map.1 hm with ⟨p, _, he⟩
      exact Event.noConfusion he
    · rcases List.mem_singleton.1 hm with he
      exact Event.noConfusion he

/-- Witness for C8: a catalog whose second entry carries format `json`;
the first entry is bound, the third never is, and the query never runs. -/
theorem runSql_unsupported_format_aborts_witness :
    (runSql "SELECT 1" none
        ⟨some ([("a", ⟨"/a.csv", "csv"⟩)] ++ ("b", ⟨"/b.json", "json"⟩) ::
          [("c", ⟨"/c.csv", "csv"⟩)])⟩ =
      (Event.connect ::
          ([("a", ⟨"/a.csv", "csv"⟩)] : Catalog).map
            (fun p => Event.exec (specBoundStmt none p)) ++ [Event.close],
       .error (.unsupportedCatalogFormat "json"))) ∧
    Event.execQuery "SELECT 1" ∉
      (runSql "SELECT 1" none
        ⟨some ([("a", ⟨"/a.csv", "csv"⟩)] ++ ("b", ⟨"/b.json", "json"⟩) ::
          [("c", ⟨"/c.csv", "csv"⟩)])⟩).1 :=
  ⟨(runSql_unsupported_format_aborts "SELECT 1" none _ _ _ _ (by decide) (by decide)).1,
   (runSql_unsupported_format_aborts "SELECT 1" none _ _ _ _ (by decide) (by decide)).2
     "SELECT 1"⟩

/-! ## C4: blank SQL handling -/

/-- C4 counterexample: `run_sql` performs no blank-query check; on a
whitespace-only SQL string it opens a session, runs the binding loop, and
hands the blank string to the engine, returning no error of its own. -/
theorem runSql_blank_opens_session :
    runSql "   " none ⟨some []⟩ =
      ([Event.connect, Event.execQuery "   ", Event.close], .ok "   ") := by
  decide

/-- C4 amended: the empty or whitespace-only SQL string is rejected by
the `sql` command of the CLI, which exits with status 2 before any engine
session is opened; `run_sql` itself performs no such check and opens a
session whatever the SQL text is. -/
theorem sqlCmd_rejects_blank_before_session (query : List String) (st : Store)
    (h : joinedQuery query = "") :
    sqlCmd query st = ([], some 2) ∧
    ∀ sql : String, (runSql sql none st).1.head? = some Event.connect := by
  constructor
  · simp [sqlCmd, h]
  · intro sql
    simp only [runSql]
    rcases (bindAll none (loadCatalog st)).2 with _ | e <;> simp

/-- Witness for C4's amended claim: the CLI invoked with blank words. -/
theorem sqlCmd_rejects_blank_before_session_witness :
    sqlCmd ["", "  "] ⟨some [("t", ⟨"/t.csv", "csv"⟩)]⟩ = ([], some 2) ∧
    (runSql " " none ⟨some [("t", ⟨"/t.csv", "csv"⟩)]⟩).1.head? = some Event.connect :=
  ⟨(sqlCmd_rejects_blank_before_session ["", "  "] _ (by decide)).1,
   (sqlCmd_rejects_blank_before_session ["", "  "] _ (by decide)).2 " "⟩

/-! ## C7: sqlite table discovery in load_df -/

theorem sortNames_head_min {l ts : List String} {t : String}
    (h : l.insertionSort (fun a b => strLe a b = true) = t :: ts) :
    t ∈ l ∧ ∀ u ∈ l, strLe t u = true := by
  haveI : IsTotal String (fun a b => strLe a b = true) := ⟨strLe_total⟩
  haveI : IsTrans String (fun a b => strLe a b = true) :=
    ⟨fun _ _ _ hab hbc => strLe_trans hab hbc⟩
  have hs := List.sorted_insertionSort (fun a b => strLe a b = true) l
  rw [h] at hs
  have hmem : t ∈ l := (List.mem_insertionSort _).1 (h ▸ List.mem_cons_self t ts)
  refine ⟨hmem, fun u hu => ?_⟩
  have hu' : u ∈ t :: ts := h ▸ (List.mem_insertionSort _).2 hu
  rcases List.mem_cons.1 hu' with he | hm
  · exact he ▸ strLe_refl t
  · exact List.rel_of_sorted_cons hs u hm

/-- C7: on a sqlite-family entry with no table argument, `load_df`
discovers the lexicographically first table name in the file's table
catalog (the head of the name list sorted as `ORDER BY name` sorts it: it
belongs to the catalog and lexicographically precedes every table name in
it) and previews that table; it fails with the no-tables error when the
file holds no tables. -/
theorem loadDf_sqlite_first_table (env : Env) (name : String)
    (entry : CatalogEntry) (limit : Option Int)
    (h1 : lookupKey name (loadCatalog env.store) = some entry)
    (h2 : entry.format = "sqlite" ∨ entry.format = "db") :
    ((env.sqlite entry.path).tables = [] →
      loadDf env name none limit = .error (.noTables entry.path)) ∧
    ∀ t ts, ((env.sqlite entry.path).tables.map Prod.fst).insertionSort
        (fun a b => strLe a b = true) = t :: ts →
      t ∈ (env.sqlite entry.path).tables.map Prod.fst ∧
      (∀ u ∈ (env.sqlite entry.path).tables.map Prod.fst, strLe t u = true) ∧
      loadDf env name none limit = sqliteRun (env.sqlite entry.path) t limit := by
  constructor
  · intro hemp
    rcases h2 with h2 | h2 <;> simp [loadDf, h1, h2, hemp]
  · intro t ts hsort
    have hmin := sortNames_head_min hsort
    refine ⟨hmin.1, hmin.2, ?_⟩
    rcases h2 with h2 | h2 <;> simp [loadDf, h1, h2, hsort]

/-- Witness for C7: a two-table sqlite file where `aa` is discovered
ahead of `zz`. -/
theorem loadDf_sqlite_first_table_witness :
    ("aa" ∈ ([("zz", [["1"]]), ("aa", [["2"]])] :
        List (String × List Row)).map Prod.fst) ∧
    loadDf ⟨⟨some [("d", ⟨"/x.db", "sqlite"⟩)]⟩, fun _ => [], fun _ => [],
        fun _ => ⟨[("zz", [["1"]]), ("aa", [["2"]])]⟩⟩ "d" none none =
      sqliteRun ⟨[("zz", [["1"]]), ("aa", [["2"]])]⟩ "aa" none :=
  ⟨((loadDf_sqlite_first_table
      ⟨⟨some [("d", ⟨"/x.db", "sqlite"⟩)]⟩, fun _ => [], fun _ => [],
        fun _ => ⟨[("zz", [["1"]]), ("aa", [["2"]])]⟩⟩ "d" ⟨"/x.db", "sqlite"⟩ none
      (by decide) (Or.inl rfl)).2 "aa" ["zz"] (by decide)).1,
   ((loadDf_sqlite_first_table
      ⟨⟨some [("d", ⟨"/x.db", "sqlite"⟩)]⟩, fun _ => [], fun _ => [],
        fun _ => ⟨[("zz", [["1"]]), ("aa", [["2"]])]⟩⟩ "d" ⟨"/x.db", "sqlite"⟩ none
      (by decide) (Or.inl rfl)).2 "aa" ["zz"] (by decide)).2.2⟩

/-! ## C9: limit zero behaves like no limit -/

theorem sqliteRun_limit_zero (db : SqliteDB) (t : String) :
    sqliteRun db t (some 0) = sqliteRun db t none := by
  simp [sqliteRun, sqliteQueryText, intTruthy]

/-- C9: `load_df` with `limit=0` behaves exactly like `limit=None` on
every branch — `0` is falsy in Python — so a csv or parquet dataset
returns every row of the file rather than a zero-row preview, and the
sqlite branch appends no LIMIT clause to the generated query. -/
theorem loadDf_limit_zero (env : Env) (name : String) (table : Option String) :
    loadDf env name table (some 0) = loadDf env name table none ∧
    (∀ entry, lookupKey name (loadCatalog env.store) = some entry →
      entry.format = "csv" →
      loadDf env name table (some 0) = .ok ⟨env.readCsv entry.path, none⟩) := by
  constructor
  · cases hlk : lookupKey name (loadCatalog env.store) with
    | none => simp [loadDf, hlk]
    | some entry =>
      by_cases hc : entry.format = "csv"
      · simp [loadDf, hlk, hc, intTruthy]
      · by_cases hp : entry.format = "parquet"
        · simp [loadDf, hlk, hc, hp, intTruthy]
        · by_cases hs : entry.format = "sqlite" ∨ entry.format = "db"
          · cases table with
            | some t => simp [loadDf, hlk, hc, hp, hs, sqliteRun_limit_zero]
            | none =>
              cases hsort : ((env.sqlite entry.path).tables.map Prod.fst).insertionSort
                  (fun a b => strLe a b = true) with
              | nil => simp [loadDf, hlk, hc, hp, hs, hsort]
              | cons t ts => simp [loadDf, hlk, hc, hp, hs, hsort, sqliteRun_limit_zero]
          · simp [loadDf, hlk, hc, hp, hs]
  · intro entry hlk hfmt
    simp [loadDf, hlk, hfmt, intTruthy]

/-- Witness for C9: a two-row csv file previewed with `limit=0`. -/
theorem loadDf_limit_zero_witness :
    loadDf ⟨⟨some [("c", ⟨"/c.csv", "csv"⟩)]⟩, fun _ => [["1"], ["2"]], fun _ => [],
        fun _ => ⟨[]⟩⟩ "c" none (some 0) =
      loadDf ⟨⟨some [("c", ⟨"/c.csv", "csv"⟩)]⟩, fun _ => [["1"], ["2"]], fun _ => [],
        fun _ => ⟨[]⟩⟩ "c" none none ∧
    loadDf ⟨⟨some [("c", ⟨"/c.csv", "csv"⟩)]⟩, fun _ => [["1"], ["2"]], fun _ => [],
        fun _ => ⟨[]⟩⟩ "c" none (some 0) = .ok ⟨[["1"], ["2"]], none⟩ :=
  ⟨(loadDf_limit_zero
      ⟨⟨some [("c", ⟨"/c.csv", "csv"⟩)]⟩, fun _ => [["1"], ["2"]], fun _ => [],
        fun _ => ⟨[]⟩⟩ "c" none).1,
   (loadDf_limit_zero
      ⟨⟨some [("c", ⟨"/c.csv", "csv"⟩)]⟩, fun _ => [["1"], ["2"]], fun _ => [],
        fun _ => ⟨[]⟩⟩ "c" none).2 ⟨"/c.csv", "csv"⟩ (by decide) rfl⟩

/-! ## C10: no identifier quoting in the load_df sqlite query -/

theorem generatedQuery_sqliteRun (db : SqliteDB) (t : String) (limit : Option Int) :
    generatedQuery (sqliteRun db t limit) = some (sqliteQueryText t limit) := by
  cases hlk : lookupKey t db.tables <;> simp [sqliteRun, generatedQuery, hlk]

/-- C10: on a sqlite-family entry with an explicit table argument `t`,
the query text `load_df` hands to the sqlite driver is exactly
`SELECT * FROM ` followed by `t` verbatim, plus ` LIMIT k` when the limit
is truthy — no identifier quoting is applied to `t` — whereas the
relation names bound by the query facade pass through the quoting
helper. -/
theorem loadDf_sqlite_table_unquoted (env : Env) (name : String)
    (entry : CatalogEntry) (t : String) (limit : Option Int)
    (h1 : lookupKey name (loadCatalog env.store) = some entry)
    (h2 : entry.format = "sqlite" ∨ entry.format = "db") :
    generatedQuery (loadDf env name (some t) limit) =
      some ("SELECT * FROM " ++ t ++
        (if intTruthy limit then " LIMIT " ++ toString (limit.getD 0) else "")) ∧
    ∀ vn pth : String,
      bindEntry none (vn, ⟨pth, "csv"⟩) =
        .ok ("CREATE VIEW " ++ quoteIdent vn ++
          " AS SELECT * FROM read_csv_auto('" ++ pth ++ "')") := by
  constructor
  · have hrun : loadDf env name (some t) limit =
        sqliteRun (env.sqlite entry.path) t limit := by
      rcases h2 with h2 | h2 <;> simp [loadDf, h1, h2]
    rw [hrun, generatedQuery_sqliteRun]
    rfl
  · intro vn pth
    simp [bindEntry, effectiveName]

/-- Witness for C10: an unquoted table name holding a space and a quote,
with a truthy limit. -/
theorem loadDf_sqlite_table_unquoted_witness :
    generatedQuery (loadDf ⟨⟨some [("d", ⟨"/x.db", "db"⟩)]⟩, fun _ => [], fun _ => [],
        fun _ => ⟨[]⟩⟩ "d" (some "my \"t\"; DROP") (some 2)) =
      some ("SELECT * FROM " ++ "my \"t\"; DROP" ++
        (if intTruthy (some 2) then " LIMIT " ++ toString ((some (2 : Int)).getD 0)
         else "")) ∧
    bindEntry none ("vn", ⟨"/p.csv", "csv"⟩) =
      .ok ("CREATE VIEW " ++ quoteIdent "vn" ++
        " AS SELECT * FROM read_csv_auto('" ++ "/p.csv" ++ "')") :=
  ⟨(loadDf_sqlite_table_unquoted ⟨⟨some [("d", ⟨"/x.db", "db"⟩)]⟩, fun _ => [],
      fun _ => [], fun _ => ⟨[]⟩⟩ "d" ⟨"/x.db", "db"⟩ "my \"t\"; DROP" (some 2)
      (by decide) (Or.inr rfl)).1,
   (loadDf_sqlite_table_unquoted ⟨⟨some [("d", ⟨"/x.db", "db"⟩)]⟩, fun _ => [],
      fun _ => [], fun _ => ⟨[]⟩⟩ "d" ⟨"/x.db", "db"⟩ "my \"t\"; DROP" (some 2)
      (by decide) (Or.inr rfl)).2 "vn" "/p.csv"⟩

end DataPulse
